import Mathlib

/-!
Shallow embedding of the Ceres weather-resolution program
(`client_geo.py` and `server.py`).

Modelling conventions:
- Python floats used for coordinates are modelled as `Rat`; the only
  operations the program performs on them are order comparisons and pass-through,
  which `Rat` models exactly.
- JSON values that may appear in raw geocoding records are modelled by `JVal`
  (null, bool, int, non-integer number, string, and an opaquely tagged
  "other" constructor for arrays/objects, on which Python `int()` raises).
  Exotic Python `int(str)` literal forms (underscore separators, non-ASCII
  digits) are not modelled; `.lower()`/`.strip()` are modelled by
  `pyLower`/`pyStrip` below, which agree with Python on ASCII input.
- HTTP calls are modelled by total oracles in `Upstream`; every modelled
  operation that performs network traffic also returns the ordered list of
  `Call`s it made, so "no geocoding call is performed" is expressible.
  Transport failures (`raise_for_status`) abort the whole invocation in the
  source and are outside the modelled claims.
- Python exceptions become `Except Err`; `Err.indexError` models the
  `IndexError` that `ranked[0]` would raise on an empty ranking.
- Python `list.sort(key=pop, reverse=True)` is a stable descending sort;
  `sortPop` below is insertion sort with the same stable-descending
  behaviour (stable sorted permutations are unique, so the outputs agree).
- `dict` update preserves insertion order and overwrites in place; `dictSet`
  on association lists models this.
-/

/-- JSON-like value appearing in raw geocoding records and payload fields. -/
inductive JVal where
  | jnull
  | jbool (b : Bool)
  | jint (n : Int)
  | jrat (q : Rat)
  | jstr (s : String)
  | jother (tag : Nat)
deriving DecidableEq

/-- One raw geocoding hit as returned in the upstream `results` list.
Latitude and longitude are required by the source (`r["latitude"]`); the
admin fields are modelled as optional strings (the upstream schema). -/
structure RawRec where
  name : Option String
  latitude : Rat
  longitude : Rat
  country_code : Option String
  admin1 : Option String
  admin2 : Option String
  timezone : Option String
  population : Option JVal
deriving DecidableEq

/-- The `GeoResult` dataclass of `client_geo.py`. -/
structure GeoResult where
  name : String
  latitude : Rat
  longitude : Rat
  country_code : String
  admin1 : Option String
  admin2 : Option String
  timezone : Option String
  population : Option JVal
deriving DecidableEq

/-- A forecast payload: the `current.time` chain used for the history key,
an abstract body distinguishing payloads, and the `_resolved_location`
entry (absent in upstream responses, set by `get_forecast_auto`).
`currentTime` models the value of `(payload.get("current") or {}).get("time")`:
`none` when `current` is absent/falsy or carries no `time`. -/
structure FPayload where
  currentTime : Option String
  body : Nat
  resolvedLoc : Option (List (String × JVal))
deriving DecidableEq

/-- Error taxonomy: the `ValueError`s raised by the source, plus the
`IndexError` that `ranked[0]` would raise on an empty ranking. -/
inductive Err where
  | invalidCoordinate (lat lon : Rat)
  | notFound (city : String)
  | missingLocation
  | indexError
deriving DecidableEq

/-- One outbound HTTP request, recorded in order. -/
inductive Call where
  | geocodeCall (name country_code language : String) (count : Nat)
  | forecastCall (lat lon : Rat) (timezone : String) (forecast_days : Nat)
deriving DecidableEq

/-- Whether a recorded call is a geocoding request. -/
def isGeocodeCall : Call → Bool
  | Call.geocodeCall _ _ _ _ => true
  | Call.forecastCall _ _ _ _ => false

/-- Oracles standing for the two external services; both are total
(successful HTTP responses). `geocode` returns the raw `results` list
(`data.get("results") or []`). -/
structure Upstream where
  geocode : String → String → String → Nat → List RawRec
  forecast : Rat → Rat → String → Nat → FPayload

/-- The persisted per-location record: `latest` plus the timestamp-indexed
history (`setdefault("history", {})` makes an absent history the empty map). -/
structure MeteoRecord where
  latest : Option FPayload
  history : List (String × FPayload)
deriving DecidableEq

/-- The on-disk store, one record per folder key; `none` models a missing
or corrupt file (both recovered as an absent record in the source). -/
def Store : Type := String → Option MeteoRecord

/-- Overwrite one key of the store (the final `json.dump`). -/
def updStore (s : Store) (k : String) (v : MeteoRecord) : Store :=
  fun k2 => if k2 = k then some v else s k2

/-- Python `str.lower()`, character-wise (ASCII case mapping, which agrees
with Python on the ASCII range). -/
def pyLower (s : String) : String := String.mk (s.data.map Char.toLower)

/-- Python `str.strip()`: drop whitespace from both ends. -/
def pyStrip (s : String) : String :=
  String.mk (((s.data.dropWhile Char.isWhitespace).reverse.dropWhile Char.isWhitespace).reverse)

/-- The `_norm` helper of `OpenMeteoClient`: `(s or "").strip().lower()`. -/
def _norm (s : Option String) : String := pyLower (pyStrip (s.getD ""))

/-- Python `int(s)` on a string: optional surrounding whitespace, optional
sign, then decimal digits; `none` when `int()` would raise `ValueError`. -/
def pyIntOfString (s : String) : Option Int :=
  let digitsVal : List Char → Int :=
    fun l => (l.foldl (fun a c => a * 10 + (c.toNat - 48)) 0 : Nat)
  match (pyStrip s).data with
  | [] => none
  | '-' :: rest =>
      if rest ≠ [] ∧ rest.all (fun c => c.isDigit) then some (-(digitsVal rest)) else none
  | '+' :: rest =>
      if rest ≠ [] ∧ rest.all (fun c => c.isDigit) then some (digitsVal rest) else none
  | l =>
      if l.all (fun c => c.isDigit) then some (digitsVal l) else none

/-- Python `int()` truncates a non-integer number toward zero. -/
def ratTrunc (q : Rat) : Int := Int.tdiv q.num (q.den : Int)

/-- The `pop` key of `_rank_results`: `int(p) if p is not None else -1`,
with any exception from `int(p)` caught and mapped to `-1`. -/
def popOf (r : RawRec) : Int :=
  match r.population with
  | none => -1
  | some JVal.jnull => -1
  | some (JVal.jbool b) => if b then 1 else 0
  | some (JVal.jint n) => n
  | some (JVal.jrat q) => ratTrunc q
  | some (JVal.jstr s) =>
      match pyIntOfString s with
      | some n => n
      | none => -1
  | some (JVal.jother _) => -1

/-- Descending comparison used by the population sort. -/
def popGe (a b : RawRec) : Prop := popOf b ≤ popOf a

/-- Stable descending insertion: the incoming element goes in front of the
first element whose key is not larger (earlier input wins ties). -/
def insPop (x : RawRec) : List RawRec → List RawRec
  | [] => [x]
  | y :: t => if popOf y ≤ popOf x then x :: y :: t else y :: insPop x t

/-- Stable descending sort by `popOf`: the observable behaviour of
`results.sort(key=pop, reverse=True)`. -/
def sortPop : List RawRec → List RawRec
  | [] => []
  | x :: t => insPop x (sortPop t)

/-- One soft filter stage of `_rank_results`: skipped when the hint is
absent or falsy, otherwise keep the case-insensitive trimmed matches
unless that would empty the set, in which case keep the pre-stage set. -/
def hintStage (get : RawRec → Option String) (hint : Option String)
    (results : List RawRec) : List RawRec :=
  match hint with
  | none => results
  | some h =>
      if h = "" then results
      else
        let filtered := results.filter (fun r => _norm (get r) == _norm (some h))
        if filtered.isEmpty then results else filtered

/-- The surviving set after the three filter stages of `_rank_results`
(country, then state against admin1, then county against admin2). -/
def surviving (results : List RawRec) (state county country_code : Option String) :
    List RawRec :=
  hintStage RawRec.admin2 county
    (hintStage RawRec.admin1 state
      (hintStage RawRec.country_code country_code results))

/-- The `_rank_results` method: three revert-on-empty filter stages, then
the stable descending population sort. -/
def _rank_results (results : List RawRec) (state county country_code : Option String) :
    List RawRec :=
  sortPop (surviving results state county country_code)

/-- The in-range check of `_validate_latlon` and of the candidate filter. -/
def validLatLon (lat lon : Rat) : Bool :=
  decide ((-90 ≤ lat ∧ lat ≤ 90) ∧ (-180 ≤ lon ∧ lon ≤ 180))

/-- Build a `GeoResult` from a chosen raw record, with the source's
defaults (`r.get("name", city)`, `r.get("country_code", country_code)`). -/
def toGeoResult (r : RawRec) (city country_code : String) : GeoResult :=
  { name := r.name.getD city
    latitude := r.latitude
    longitude := r.longitude
    country_code := r.country_code.getD country_code
    admin1 := r.admin1
    admin2 := r.admin2
    timezone := r.timezone
    population := r.population }

/-- The pure part of `geocode_candidates`: turn the raw `results` list into
`GeoResult`s, silently skipping records whose coordinates are out of range. -/
def geocode_candidates (raw : List RawRec) (city country_code : String) :
    List GeoResult :=
  raw.filterMap (fun r =>
    if validLatLon r.latitude r.longitude then some (toGeoResult r city country_code)
    else none)

/-- The pure part of `geocode_city`, after the raw `results` list has been
fetched: raise `NotFoundError` on an empty list, rank the raw records,
take the first, and strictly re-validate its coordinates. -/
def geocode_city (raw : List RawRec) (city : String)
    (state county : Option String) (country_code : String) : Except Err GeoResult :=
  if raw.isEmpty then Except.error (Err.notFound city)
  else
    match _rank_results raw state county (some country_code) with
    | [] => Except.error Err.indexError
    | chosen :: _ =>
        if validLatLon chosen.latitude chosen.longitude then
          Except.ok (toGeoResult chosen city country_code)
        else Except.error (Err.invalidCoordinate chosen.latitude chosen.longitude)

/-- The `_resolved_location` dict built in the latlon branch. -/
def latlonObj (lat lon : Rat) (timezone : String) : List (String × JVal) :=
  [("mode", JVal.jstr "latlon"), ("latitude", JVal.jrat lat),
   ("longitude", JVal.jrat lon), ("timezone", JVal.jstr timezone)]

/-- Optional string to JSON value (Python `None` becomes JSON null). -/
def jOptStr : Option String → JVal
  | none => JVal.jnull
  | some s => JVal.jstr s

/-- The `_resolved_location` dict built in the city branch, in source order. -/
def cityObj (geo : GeoResult) (timezone : String) : List (String × JVal) :=
  [("mode", JVal.jstr "city"), ("name", JVal.jstr geo.name),
   ("admin1", jOptStr geo.admin1), ("admin2", jOptStr geo.admin2),
   ("country_code", JVal.jstr geo.country_code),
   ("latitude", JVal.jrat geo.latitude), ("longitude", JVal.jrat geo.longitude),
   ("timezone", JVal.jstr timezone),
   ("population", (geo.population).getD JVal.jnull)]

/-- Attach the `_resolved_location` key to a payload. -/
def withResolved (p : FPayload) (rl : List (String × JVal)) : FPayload :=
  { p with resolvedLoc := some rl }

/-- Python `a or b` on an optional string (falsy `None` and `""` fall back). -/
def pyOr (o : Option String) (d : String) : String :=
  match o with
  | none => d
  | some t => if t = "" then d else t

/-- The `get_forecast` method: validate the coordinates, then one forecast
request; the validation failure happens before any network call. -/
def get_forecast (env : Upstream) (latitude longitude : Rat)
    (timezone : String) (forecast_days : Nat) : Except Err FPayload × List Call :=
  if validLatLon latitude longitude then
    (Except.ok (env.forecast latitude longitude timezone forecast_days),
     [Call.forecastCall latitude longitude timezone forecast_days])
  else (Except.error (Err.invalidCoordinate latitude longitude), [])

/-- The city path of `get_forecast_auto`, after the early latlon return:
geocoding request, ranking and validation via `geocode_city`, then the
forecast request, with the provider timezone taking precedence over the
caller default. -/
def city_path (env : Upstream) (c : String) (state county : Option String)
    (country_code : String) (timezone : String) (forecast_days : Nat)
    (language : String) : Except Err FPayload × List Call :=
  let raw := env.geocode c country_code language 10
  match geocode_city raw c state county country_code with
  | Except.error e =>
      (Except.error e, [Call.geocodeCall c country_code language 10])
  | Except.ok geo =>
      let tz := pyOr geo.timezone timezone
      match get_forecast env geo.latitude geo.longitude tz forecast_days with
      | (Except.ok p, calls) =>
          (Except.ok (withResolved p (cityObj geo tz)),
           Call.geocodeCall c country_code language 10 :: calls)
      | (Except.error e, calls) =>
          (Except.error e,
           Call.geocodeCall c country_code language 10 :: calls)

/-- The `if not city: raise` dispatch of `get_forecast_auto` (requiring a
truthy city) followed by the city path. -/
def auto_city_dispatch (env : Upstream) (city : Option String)
    (state county : Option String) (country_code : String) (timezone : String)
    (forecast_days : Nat) (language : String) : Except Err FPayload × List Call :=
  match city with
  | none => (Except.error Err.missingLocation, [])
  | some c =>
      if c = "" then (Except.error Err.missingLocation, [])
      else city_path env c state county country_code timezone forecast_days language

/-- The `get_forecast_auto` method: direct latlon mode when both
coordinates are supplied (geocoding never consulted), otherwise the city
dispatch. -/
def get_forecast_auto (env : Upstream) (city state county : Option String)
    (country_code : String) (latitude longitude : Option Rat)
    (timezone : String) (forecast_days : Nat) (language : String) :
    Except Err FPayload × List Call :=
  match latitude, longitude with
  | some la, some lo =>
      (match get_forecast env la lo timezone forecast_days with
       | (Except.ok p, calls) =>
           (Except.ok (withResolved p (latlonObj la lo timezone)), calls)
       | (Except.error e, calls) => (Except.error e, calls))
  | _, _ =>
      auto_city_dispatch env city state county country_code timezone
        forecast_days language

/-- Single-character `str.replace`, which acts character-wise. -/
def subChar (a b : Char) (s : String) : String :=
  String.mk (s.data.map (fun c => if c = a then b else c))

/-- The city branch of the folder-key derivation:
`city.lower().strip().replace(" ", "_")`. -/
def cityKey (c : String) : String := subChar ' ' '_' (pyStrip (pyLower c))

/-- The latlon branch of the folder-key derivation, taking the decimal
renderings of the two coordinates:
`f"lat_{latitude}_lon_{longitude}".replace(".", "_").replace("-", "m")`. -/
def latlonKey (latS lonS : String) : String :=
  subChar '-' 'm' (subChar '.' '_' ("lat_" ++ latS ++ "_lon_" ++ lonS))

/-- The folder-name derivation of `get_weather_forecast`: branch on the
truthiness of the caller-supplied `city`, not on the resolution mode. -/
def folder_name (city : Option String) (latS lonS : String) : String :=
  match city with
  | some c => if c = "" then latlonKey latS lonS else cityKey c
  | none => latlonKey latS lonS

/-- Characters that can occur in the decimal rendering of a finite float. -/
def numChar (c : Char) : Bool :=
  c.isDigit || c = '.' || c = '-' || c = 'e' || c = '+'

/-- A string that is the decimal rendering of a finite float. -/
def numStr (s : String) : Prop := ∀ c ∈ s.data, numChar c = true

/-- The rendering predicate is checkable. -/
instance (s : String) : Decidable (numStr s) := List.decidableBAll _ s.data

/-- The history key: `(forecast.get("current") or {}).get("time") or "unknown_time"`
(an absent or falsy timestamp collapses to the literal `"unknown_time"`). -/
def tsOf (f : FPayload) : String :=
  match f.currentTime with
  | none => "unknown_time"
  | some t => if t = "" then "unknown_time" else t

/-- Python `dict` assignment on an association list: overwrite the existing
entry in place, or append a new one. -/
def dictSet {α : Type} : List (String × α) → String → α → List (String × α)
  | [], k, v => [(k, v)]
  | (k1, v1) :: t, k, v =>
      if k1 = k then (k, v) :: t else (k1, v1) :: dictSet t k v

/-- Number of history entries stored under a key. -/
def countKey {α : Type} (m : List (String × α)) (k : String) : Nat :=
  (m.filter (fun e => e.1 == k)).length

/-- The record a missing or corrupt file loads as (`meteo_info = {}`). -/
def emptyMeteo : MeteoRecord := { latest := none, history := [] }

/-- The merge step of `get_weather_forecast`: set `latest` unconditionally
and write the payload into `history` under its timestamp key. -/
def mergeRecord (existing : Option MeteoRecord) (f : FPayload) : MeteoRecord :=
  let m := existing.getD emptyMeteo
  { latest := some f, history := dictSet m.history (tsOf f) f }

/-- The `get_weather_forecast` tool of `server.py`: resolve and fetch via
`get_forecast_auto` (county `None`, country `"BR"`, timezone
`"America/Sao_Paulo"`, language `"pt"`), then persist under the folder key
and return the augmented payload. `latS`/`lonS` are the decimal renderings
of the caller's raw coordinates used by the latlon key branch. -/
def get_weather_forecast (env : Upstream) (store : Store)
    (city state : Option String) (latitude longitude : Option Rat)
    (latS lonS : String) (forecast_days : Nat) :
    Except Err FPayload × Store × List Call :=
  match get_forecast_auto env city state none "BR" latitude longitude
      "America/Sao_Paulo" forecast_days "pt" with
  | (Except.error e, calls) => (Except.error e, store, calls)
  | (Except.ok forecast, calls) =>
      let key := folder_name city latS lonS
      let merged := mergeRecord (store key) forecast
      (Except.ok forecast, updStore store key merged, calls)

/-- A minimal successful forecast payload used as a concrete oracle value. -/
def basePay : FPayload := { currentTime := some "2024-01-01T12:00", body := 0, resolvedLoc := none }

/-- Environment whose geocoder finds nothing and whose forecast service
always answers `basePay`. -/
def envC : Upstream := { geocode := fun _ _ _ _ => [], forecast := fun _ _ _ _ => basePay }

/-- The empty on-disk store. -/
def storeEmpty : Store := fun _ => none

/-- A raw candidate with out-of-range latitude, as the upstream service
occasionally returns. -/
def badRec : RawRec :=
  { name := some "X", latitude := 100, longitude := 0, country_code := some "BR"
    admin1 := none, admin2 := none, timezone := none, population := none }

/-- Springfield, Illinois as a raw geocoding hit. -/
def recIll : RawRec :=
  { name := some "Springfield", latitude := 39, longitude := -89
    country_code := some "US", admin1 := some "Illinois", admin2 := none
    timezone := none, population := some (JVal.jint 100000) }

/-- Springfield, Missouri as a raw geocoding hit. -/
def recMo : RawRec :=
  { name := some "Springfield", latitude := 37, longitude := -93
    country_code := some "US", admin1 := some "Missouri", admin2 := none
    timezone := none, population := some (JVal.jint 170000) }

/-- Environment whose geocoder always reports the two Springfields. -/
def envSp : Upstream :=
  { geocode := fun _ _ _ _ => [recIll, recMo], forecast := fun _ _ _ _ => basePay }

/-- Candidate with a known positive population. -/
def recPopA : RawRec :=
  { name := some "A", latitude := 1, longitude := 1, country_code := some "BR"
    admin1 := none, admin2 := none, timezone := none, population := some (JVal.jint 5) }

/-- Candidate with an absent population. -/
def recPopB : RawRec :=
  { name := some "B", latitude := 2, longitude := 2, country_code := some "BR"
    admin1 := none, admin2 := none, timezone := none, population := none }

/-- Candidate with an unparseable population string. -/
def recPopC : RawRec :=
  { name := some "C", latitude := 3, longitude := 3, country_code := some "BR"
    admin1 := none, admin2 := none, timezone := none, population := some (JVal.jstr "abc") }

/-- A payload with timestamp `"t0"`. -/
def pay1 : FPayload := { currentTime := some "t0", body := 1, resolvedLoc := none }

/-- A payload with timestamp `"k0"`. -/
def payOld : FPayload := { currentTime := some "k0", body := 2, resolvedLoc := none }

/-- An existing record with one history entry under key `"k0"`. -/
def e0 : Option MeteoRecord := some { latest := none, history := [("k0", payOld)] }

/-- The per-character effect of the composed replacements
`.replace(".", "_").replace("-", "m")`. -/
def fsub : Char → Char := fun c => if c = '.' then '_' else if c = '-' then 'm' else c

/-- Left inverse of `fsub` on characters of decimal float renderings. -/
def gsub : Char → Char := fun c => if c = '_' then '.' else if c = 'm' then '-' else c

/-- Decidable equality for geocoding outcomes. -/
instance : DecidableEq (Except Err GeoResult) := fun a b =>
  match a, b with
  | Except.ok x, Except.ok y => decidable_of_iff (x = y) (by simp)
  | Except.error x, Except.error y => decidable_of_iff (x = y) (by simp)
  | Except.ok _, Except.error _ => isFalse (by simp)
  | Except.error _, Except.ok _ => isFalse (by simp)

/-- Decidable equality for forecast outcomes. -/
instance : DecidableEq (Except Err FPayload) := fun a b =>
  match a, b with
  | Except.ok x, Except.ok y => decidable_of_iff (x = y) (by simp)
  | Except.error x, Except.error y => decidable_of_iff (x = y) (by simp)
  | Except.ok _, Except.error _ => isFalse (by simp)
  | Except.error _, Except.ok _ => isFalse (by simp)

/-! ### Shared lemmas about the stable population sort -/

theorem insPop_perm (x : RawRec) (l : List RawRec) : (insPop x l).Perm (x :: l) := by
  induction l with
  | nil => simp [insPop]
  | cons y t ih =>
      by_cases h : popOf y ≤ popOf x
      · simp [insPop, h]
      · simp only [insPop, if_neg h]
        exact (List.Perm.cons y ih).trans (List.Perm.swap x y t)

theorem sortPop_perm (l : List RawRec) : (sortPop l).Perm l := by
  induction l with
  | nil => simp [sortPop]
  | cons x t ih => exact (insPop_perm x (sortPop t)).trans (List.Perm.cons x ih)

theorem mem_sortPop {a : RawRec} {l : List RawRec} : a ∈ sortPop l ↔ a ∈ l :=
  (sortPop_perm l).mem_iff

theorem pairwise_insPop (x : RawRec) (l : List RawRec)
    (h : List.Pairwise popGe l) : List.Pairwise popGe (insPop x l) := by
  induction l with
  | nil => simp [insPop, List.pairwise_singleton]
  | cons y t ih =>
      rcases List.pairwise_cons.mp h with ⟨hy, ht⟩
      by_cases hxy : popOf y ≤ popOf x
      · simp only [insPop, if_pos hxy]
        refine List.pairwise_cons.mpr ⟨?_, h⟩
        intro b hb
        rcases List.mem_cons.mp hb with rfl | hb
        · exact hxy
        · exact le_trans (hy b hb) hxy
      · simp only [insPop, if_neg hxy]
        refine List.pairwise_cons.mpr ⟨?_, ih ht⟩
        intro b hb
        rcases List.mem_cons.mp ((insPop_perm x t).mem_iff.mp hb) with rfl | hb
        · exact le_of_lt (lt_of_not_le hxy)
        · exact hy b hb

theorem pairwise_sortPop (l : List RawRec) : List.Pairwise popGe (sortPop l) := by
  induction l with
  | nil => simp [sortPop]
  | cons x t ih => exact pairwise_insPop x (sortPop t) ih

theorem sortPop_of_pairwise (l : List RawRec) (h : List.Pairwise popGe l) :
    sortPop l = l := by
  induction l with
  | nil => rfl
  | cons x t ih =>
      rcases List.pairwise_cons.mp h with ⟨hx, ht⟩
      show insPop x (sortPop t) = x :: t
      rw [ih ht]
      cases t with
      | nil => rfl
      | cons y t2 =>
          have h1 : popOf y ≤ popOf x := hx y (List.mem_cons_self y t2)
          simp [insPop, h1]

theorem filter_insPop_eq (x : RawRec) (l : List RawRec) (k : Int) (hx : popOf x = k) :
    (insPop x l).filter (fun y => popOf y == k) =
      x :: l.filter (fun y => popOf y == k) := by
  subst hx
  induction l with
  | nil => simp [insPop]
  | cons y t ih =>
      by_cases hxy : popOf y ≤ popOf x
      · simp [insPop, hxy]
      · have hyk : (popOf y == popOf x) = false :=
          beq_eq_false_iff_ne.mpr (fun hk => hxy (le_of_eq hk))
        simp [insPop, if_neg hxy, List.filter_cons, hyk, ih]

theorem filter_insPop_ne (x : RawRec) (l : List RawRec) (k : Int) (hx : popOf x ≠ k) :
    (insPop x l).filter (fun y => popOf y == k) = l.filter (fun y => popOf y == k) := by
  have hxk : (popOf x == k) = false := by simpa using hx
  induction l with
  | nil => simp [insPop, hxk]
  | cons y t ih =>
      by_cases hxy : popOf y ≤ popOf x
      · simp [insPop, hxy, hxk]
      · simp only [insPop, if_neg hxy, List.filter_cons]
        by_cases hyk : (popOf y == k) = true
        · simp [hyk, ih]
        · simp only [Bool.not_eq_true] at hyk
          simp [hyk, ih]

theorem sortPop_filter (l : List RawRec) (k : Int) :
    (sortPop l).filter (fun y => popOf y == k) = l.filter (fun y => popOf y == k) := by
  induction l with
  | nil => rfl
  | cons x t ih =>
      show (insPop x (sortPop t)).filter (fun y => popOf y == k) = _
      by_cases hx : popOf x = k
      · rw [filter_insPop_eq x (sortPop t) k hx, ih, List.filter_cons]
        simp [hx]
      · rw [filter_insPop_ne x (sortPop t) k hx, ih, List.filter_cons]
        have : (popOf x == k) = false := by simpa using hx
        simp [this]

theorem sortPop_ne_nil {l : List RawRec} (h : l ≠ []) : sortPop l ≠ [] := by
  intro hcon
  exact h (List.Perm.eq_nil ((sortPop_perm l).symm.trans (hcon ▸ List.Perm.refl [])))

/-! ### Shared lemmas about the soft filter stages -/

theorem mem_hintStage {get : RawRec → Option String} {hint : Option String}
    {l : List RawRec} {x : RawRec} (h : x ∈ hintStage get hint l) : x ∈ l := by
  cases hint with
  | none => exact h
  | some s =>
      by_cases hs : s = ""
      · simpa [hintStage, hs] using h
      · simp only [hintStage, if_neg hs] at h
        by_cases hf : (l.filter (fun r => _norm (get r) == _norm (some s))).isEmpty = true
        · rw [if_pos hf] at h; exact h
        · rw [if_neg hf] at h; exact (List.mem_filter.mp h).1

theorem hintStage_stable {get : RawRec → Option String} {hint : Option String}
    {l m : List RawRec} (hm : ∀ x ∈ m, x ∈ hintStage get hint l) :
    hintStage get hint m = m := by
  cases hint with
  | none => rfl
  | some s =>
      by_cases hs : s = ""
      · simp [hintStage, hs]
      · simp only [hintStage, if_neg hs] at hm ⊢
        set p : RawRec → Bool := fun r => _norm (get r) == _norm (some s) with hp
        by_cases hf : (l.filter p).isEmpty = true
        · rw [if_pos hf] at hm
          have hnone : ∀ x ∈ l, ¬ p x = true :=
            List.filter_eq_nil_iff.mp (List.isEmpty_iff.mp hf)
          have : m.filter p = [] :=
            List.filter_eq_nil_iff.mpr (fun a ha => hnone a (hm a ha))
          simp [this]
        · rw [if_neg hf] at hm
          have hall : ∀ x ∈ m, p x = true := fun x hx => (List.mem_filter.mp (hm x hx)).2
          have hmm : m.filter p = m := List.filter_eq_self.mpr hall
          rw [hmm, ite_self]

theorem hintStage_ne_nil {get : RawRec → Option String} {hint : Option String}
    {l : List RawRec} (h : l ≠ []) : hintStage get hint l ≠ [] := by
  cases hint with
  | none => exact h
  | some s =>
      by_cases hs : s = ""
      · simpa [hintStage, hs] using h
      · simp only [hintStage, if_neg hs]
        by_cases hf : (l.filter (fun r => _norm (get r) == _norm (some s))).isEmpty = true
        · rw [if_pos hf]; exact h
        · rw [if_neg hf]
          intro hcon
          rw [hcon] at hf
          exact hf rfl

theorem mem_surviving {l : List RawRec} {st ct cc : Option String} {x : RawRec}
    (h : x ∈ surviving l st ct cc) : x ∈ l :=
  mem_hintStage (mem_hintStage (mem_hintStage h))

theorem surviving_ne_nil {l : List RawRec} (st ct cc : Option String) (h : l ≠ []) :
    surviving l st ct cc ≠ [] :=
  hintStage_ne_nil (hintStage_ne_nil (hintStage_ne_nil h))

/-! ### Shared lemmas about the association-list dictionary -/

theorem lookup_dictSet_self {α : Type} (m : List (String × α)) (k : String) (v : α) :
    List.lookup k (dictSet m k v) = some v := by
  induction m with
  | nil => simp [dictSet, List.lookup]
  | cons e t ih =>
      by_cases h : e.1 = k
      · simp [dictSet, h, List.lookup]
      · have hb : (k == e.1) = false := beq_eq_false_iff_ne.mpr (fun hk => h hk.symm)
        simp [dictSet, h, List.lookup, hb, ih]

theorem lookup_dictSet_ne {α : Type} (m : List (String × α)) (k k2 : String) (v : α)
    (h : k2 ≠ k) : List.lookup k2 (dictSet m k v) = List.lookup k2 m := by
  induction m with
  | nil =>
      have h1 : (k2 == k) = false := beq_eq_false_iff_ne.mpr h
      simp [dictSet, List.lookup, h1]
  | cons e t ih =>
      by_cases he : e.1 = k
      · have h1 : (k2 == k) = false := beq_eq_false_iff_ne.mpr h
        have h2 : (k2 == e.1) = false := beq_eq_false_iff_ne.mpr (he ▸ h)
        simp [dictSet, if_pos he, List.lookup, h1, h2]
      · simp only [dictSet, if_neg he, List.lookup]
        by_cases hk2 : k2 = e.1
        · simp [hk2]
        · have h3 : (k2 == e.1) = false := beq_eq_false_iff_ne.mpr hk2
          simp [h3, ih]

theorem mem_keys_dictSet {α : Type} (m : List (String × α)) (k k2 : String) (v : α)
    (h : k2 ∈ m.map Prod.fst) : k2 ∈ (dictSet m k v).map Prod.fst := by
  induction m with
  | nil => simp at h
  | cons e t ih =>
      simp only [List.map_cons, List.mem_cons] at h
      by_cases he : e.1 = k
      · simp only [dictSet, if_pos he, List.map_cons, List.mem_cons]
        rcases h with h1 | h1
        · exact Or.inl (h1.trans he)
        · exact Or.inr h1
      · simp only [dictSet, if_neg he, List.map_cons, List.mem_cons]
        rcases h with h1 | h1
        · exact Or.inl h1
        · exact Or.inr (ih h1)

theorem countKey_eq_zero {α : Type} (m : List (String × α)) (k : String)
    (h : k ∉ m.map Prod.fst) : countKey m k = 0 := by
  induction m with
  | nil => rfl
  | cons e t ih =>
      simp only [List.map_cons, List.mem_cons, not_or] at h
      have he : (e.1 == k) = false := beq_eq_false_iff_ne.mpr (fun hk => h.1 hk.symm)
      simp only [countKey, List.filter_cons, he]
      exact ih h.2

theorem countKey_dictSet {α : Type} (m : List (String × α)) (k : String) (v : α)
    (h : (m.map Prod.fst).Nodup) : countKey (dictSet m k v) k = 1 := by
  induction m with
  | nil => simp [dictSet, countKey]
  | cons e t ih =>
      simp only [List.map_cons, List.nodup_cons] at h
      by_cases he : e.1 = k
      · simp only [dictSet, if_pos he, countKey, List.filter_cons, beq_self_eq_true]
        have h0 : countKey t k = 0 := countKey_eq_zero t k (he ▸ h.1)
        simpa [countKey] using h0
      · have heb : (e.1 == k) = false := beq_eq_false_iff_ne.mpr he
        simp only [dictSet, if_neg he, countKey, List.filter_cons, heb]
        exact ih h.2

theorem dictSet_dictSet_same {α : Type} (m : List (String × α)) (k : String) (v w : α) :
    dictSet (dictSet m k v) k w = dictSet m k w := by
  induction m with
  | nil => simp [dictSet]
  | cons e t ih =>
      by_cases he : e.1 = k
      · simp [dictSet, he]
      · simp [dictSet, he, ih]


/-! ### Claim C2: filter-revert in the ranking stages -/

/-- C2: each hint filter stage keeps only the (trimmed, case-insensitive)
matches unless that would empty the set, in which case the pre-stage set is
kept; in particular, when the state filter would eliminate every candidate
(and no county hint is given), the ranked output is, as a set, exactly the
input filtered by the country stage alone. -/
theorem rank_state_filter_revert (l : List RawRec) (st : String) (cc : Option String)
    (hst : (hintStage RawRec.country_code cc l).filter
        (fun r => _norm r.admin1 == _norm (some st)) = []) :
    (_rank_results l (some st) none cc).Perm (hintStage RawRec.country_code cc l)
    ∧ (∀ x, x ∈ _rank_results l (some st) none cc ↔ x ∈ hintStage RawRec.country_code cc l)
    ∧ (∀ (get : RawRec → Option String) (s : String) (l2 : List RawRec), s ≠ "" →
        ((l2.filter (fun r => _norm (get r) == _norm (some s)) = [] →
            hintStage get (some s) l2 = l2)
         ∧ (l2.filter (fun r => _norm (get r) == _norm (some s)) ≠ [] →
            hintStage get (some s) l2
              = l2.filter (fun r => _norm (get r) == _norm (some s))))) := by
  have hstage : ∀ S1 : List RawRec,
      S1.filter (fun r => _norm r.admin1 == _norm (some st)) = [] →
      hintStage RawRec.admin1 (some st) S1 = S1 := by
    intro S1 h1
    by_cases hs : st = ""
    · simp [hintStage, hs]
    · simp only [hintStage, if_neg hs]
      rw [h1]
      rfl
  have hperm : (_rank_results l (some st) none cc).Perm
      (hintStage RawRec.country_code cc l) := by
    show (sortPop (hintStage RawRec.admin2 none
        (hintStage RawRec.admin1 (some st)
          (hintStage RawRec.country_code cc l)))).Perm _
    rw [show ∀ m : List RawRec, hintStage RawRec.admin2 none m = m from fun m => rfl]
    rw [hstage _ hst]
    exact sortPop_perm _
  refine ⟨hperm, fun x => hperm.mem_iff, ?_⟩
  intro get s l2 hs
  constructor
  · intro hfe
    simp only [hintStage, if_neg hs]
    rw [hfe]
    rfl
  · intro hfn
    simp only [hintStage, if_neg hs]
    have h2 : (l2.filter (fun r => _norm (get r) == _norm (some s))).isEmpty ≠ true :=
      fun hc => hfn (List.isEmpty_iff.mp hc)
    rw [if_neg h2]

/-- C2 witness: with one Illinois candidate and the state hint "Missouri",
the state filter empties the set, and the ranked output is a permutation of
the country-stage set. -/
theorem rank_state_filter_revert_witness :
    (_rank_results [recIll] (some "Missouri") none none).Perm
      (hintStage RawRec.country_code none [recIll]) :=
  (rank_state_filter_revert [recIll] "Missouri" none (by decide)).1

/-! ### Claim C7: stage 4 sorts by population descending, stably -/

/-- C7: the ranked output is the stable descending population sort of the
surviving set: it is a permutation, pairwise sorted by the `pop` key
(with unknown or unparseable population valued `-1`), each key class keeps
its relative input order, and any candidate with missing population comes
strictly after every candidate with a known non-negative population. -/
theorem rank_sort_population_stable (l : List RawRec) (st ct cc : Option String) :
    _rank_results l st ct cc = sortPop (surviving l st ct cc)
    ∧ (_rank_results l st ct cc).Perm (surviving l st ct cc)
    ∧ List.Pairwise popGe (_rank_results l st ct cc)
    ∧ (∀ k : Int, (_rank_results l st ct cc).filter (fun r => popOf r == k)
        = (surviving l st ct cc).filter (fun r => popOf r == k))
    ∧ (∀ pre a post, _rank_results l st ct cc = pre ++ a :: post → popOf a = -1 →
        ∀ b ∈ post, popOf b < 0)
    ∧ (∀ r : RawRec, r.population = none → popOf r = -1)
    ∧ (∀ r : RawRec, ∀ s, r.population = some (JVal.jstr s) → pyIntOfString s = none →
        popOf r = -1) := by
  refine ⟨rfl, sortPop_perm _, pairwise_sortPop _, fun k => sortPop_filter _ k, ?_, ?_, ?_⟩
  · intro pre a post heq hma b hb
    have hpw : List.Pairwise popGe (_rank_results l st ct cc) := pairwise_sortPop _
    rw [heq] at hpw
    have hab : popOf b ≤ popOf a :=
      (List.pairwise_cons.mp (List.pairwise_append.mp hpw).2.1).1 b hb
    rw [hma] at hab
    omega
  · intro r hr
    simp [popOf, hr]
  · intro r s hr hs
    simp [popOf, hr, hs]

/-- C7 witness: a candidate with a known population sorts first; the two
population-less candidates follow in input order, and everything after the
first missing-population candidate has a negative key. -/
theorem rank_sort_population_stable_witness :
    _rank_results [recPopB, recPopC, recPopA] none none none = [recPopA, recPopB, recPopC]
    ∧ popOf recPopC < 0 := by
  have h := rank_sort_population_stable [recPopB, recPopC, recPopA] none none none
  exact ⟨by decide,
    h.2.2.2.2.1 [recPopA] recPopB [recPopC] (by decide) (by decide) recPopC (by decide)⟩

/-! ### Claim C8: ranking is idempotent -/

/-- C8: re-ranking an already ranked list with the same state, county and
country filters returns it unchanged. -/
theorem rank_idempotent (l : List RawRec) (st ct cc : Option String) :
    _rank_results (_rank_results l st ct cc) st ct cc = _rank_results l st ct cc := by
  have hmem : ∀ x ∈ _rank_results l st ct cc, x ∈ surviving l st ct cc :=
    fun x hx => mem_sortPop.mp hx
  have h1 : hintStage RawRec.country_code cc (_rank_results l st ct cc)
      = _rank_results l st ct cc :=
    hintStage_stable (fun x hx => mem_hintStage (mem_hintStage (hmem x hx)))
  have h2 : hintStage RawRec.admin1 st (_rank_results l st ct cc)
      = _rank_results l st ct cc :=
    hintStage_stable (fun x hx => mem_hintStage (hmem x hx))
  have h3 : hintStage RawRec.admin2 ct (_rank_results l st ct cc)
      = _rank_results l st ct cc :=
    hintStage_stable (fun x hx => hmem x hx)
  show sortPop (surviving (_rank_results l st ct cc) st ct cc) = _rank_results l st ct cc
  unfold surviving
  rw [h1, h2, h3]
  exact sortPop_of_pairwise _ (pairwise_sortPop _)

/-! ### Claim C10: ranking never empties a non-empty candidate list -/

/-- C10: for a non-empty raw candidate list, every filter stage reverts
rather than emptying and the sort preserves cardinality, so the ranking
output is non-empty and the `ranked[0]` selection in `geocode_city` can
never raise the index error. -/
theorem rank_nonempty_and_selection_defined (raw : List RawRec)
    (st ct cc : Option String) (city country_code : String) (h : raw ≠ []) :
    _rank_results raw st ct cc ≠ []
    ∧ geocode_city raw city st ct country_code ≠ Except.error Err.indexError := by
  refine ⟨sortPop_ne_nil (surviving_ne_nil st ct cc h), ?_⟩
  have hne : _rank_results raw st ct (some country_code) ≠ [] :=
    sortPop_ne_nil (surviving_ne_nil st ct (some country_code) h)
  unfold geocode_city
  rw [if_neg (fun hc => h (List.isEmpty_iff.mp hc))]
  rcases hx : _rank_results raw st ct (some country_code) with _ | ⟨chosen, rest⟩
  · exact absurd hx hne
  · by_cases hv : validLatLon chosen.latitude chosen.longitude = true
    · simp [hv]
    · simp [hv]

/-- C10 witness: one raw candidate, no hints. -/
theorem rank_nonempty_and_selection_defined_witness :
    _rank_results [recIll] none none none ≠ []
    ∧ geocode_city [recIll] "Springfield" none none "BR" ≠ Except.error Err.indexError :=
  rank_nonempty_and_selection_defined [recIll] none none none "Springfield" "BR"
    (by decide)

/-! ### Claim C5: merge is last-write-wins and idempotent for a fixed key -/

/-- C5: merge sets `latest` unconditionally and writes `history[key]`;
merging twice under the same timestamp key leaves exactly one history
entry for that key, holding the second payload, with `latest` also the
second payload, and merging the very same payload twice is idempotent. -/
theorem merge_idempotent_fixed_key (e : Option MeteoRecord) (f1 f2 : FPayload)
    (hnd : (((e.getD emptyMeteo).history).map Prod.fst).Nodup)
    (hk : tsOf f1 = tsOf f2) :
    (mergeRecord (some (mergeRecord e f1)) f2).latest = some f2
    ∧ countKey (mergeRecord (some (mergeRecord e f1)) f2).history (tsOf f2) = 1
    ∧ List.lookup (tsOf f2) (mergeRecord (some (mergeRecord e f1)) f2).history = some f2
    ∧ mergeRecord (some (mergeRecord e f1)) f1 = mergeRecord e f1 := by
  have hh : (mergeRecord (some (mergeRecord e f1)) f2).history
      = dictSet (e.getD emptyMeteo).history (tsOf f2) f2 := by
    show dictSet (dictSet (e.getD emptyMeteo).history (tsOf f1) f1) (tsOf f2) f2 = _
    rw [hk, dictSet_dictSet_same]
  refine ⟨rfl, ?_, ?_, ?_⟩
  · rw [hh]
    exact countKey_dictSet _ _ _ hnd
  · rw [hh]
    exact lookup_dictSet_self _ _ _
  · show MeteoRecord.mk (some f1)
        (dictSet (dictSet (e.getD emptyMeteo).history (tsOf f1) f1) (tsOf f1) f1)
      = MeteoRecord.mk (some f1) (dictSet (e.getD emptyMeteo).history (tsOf f1) f1)
    rw [dictSet_dictSet_same]

/-- C5 witness: merging `pay1` twice into an empty record leaves one
history entry under its timestamp and `latest = pay1`. -/
theorem merge_idempotent_fixed_key_witness :
    countKey (mergeRecord (some (mergeRecord none pay1)) pay1).history (tsOf pay1) = 1
    ∧ (mergeRecord (some (mergeRecord none pay1)) pay1).latest = some pay1 := by
  have h := merge_idempotent_fixed_key none pay1 pay1 (by decide) rfl
  exact ⟨h.2.1, h.1⟩

/-! ### Claim C6: the record invariant under merging -/

/-- C6: every key present before a merge is still present after it, only
the merged key's value is overwritten, and `latest` always equals the most
recently merged payload, independent of any timestamp ordering. -/
theorem merge_history_never_shrinks (e : Option MeteoRecord) (f : FPayload) (k : String) :
    (mergeRecord e f).latest = some f
    ∧ (k ∈ ((e.getD emptyMeteo).history.map Prod.fst) →
        k ∈ ((mergeRecord e f).history.map Prod.fst))
    ∧ (k ≠ tsOf f →
        List.lookup k (mergeRecord e f).history
          = List.lookup k (e.getD emptyMeteo).history)
    ∧ List.lookup (tsOf f) (mergeRecord e f).history = some f
    ∧ (∀ f2, (mergeRecord (some (mergeRecord e f)) f2).latest = some f2) := by
  refine ⟨rfl, ?_, ?_, lookup_dictSet_self _ _ _, fun f2 => rfl⟩
  · exact fun hmem => mem_keys_dictSet _ _ _ _ hmem
  · exact fun hne => lookup_dictSet_ne _ _ _ _ hne

/-- C6 witness: a pre-existing entry under `"k0"` survives a merge of a
payload keyed `"t0"`, and `latest` becomes the merged payload. -/
theorem merge_history_never_shrinks_witness :
    List.lookup "k0" (mergeRecord e0 pay1).history = some payOld
    ∧ (mergeRecord e0 pay1).latest = some pay1 := by
  have h := merge_history_never_shrinks e0 pay1 "k0"
  refine ⟨?_, h.1⟩
  rw [h.2.2.1 (by decide)]
  rfl

/-! ### Claim C1: the invalid-coordinate re-check in geocode_city -/

/-- C1 (amended): `geocode_city` strictly re-validates the chosen
candidate and fails with the invalid-coordinate error when it is out of
range; when every raw upstream result is in range — as the range filter of
`geocode_candidates` would guarantee — the chosen candidate is in range and
the error branch cannot fire. But `geocode_city` ranks the raw upstream
results without that filter, so the branch is reachable (see the
counterexample). -/
theorem geocode_city_no_invalid_when_candidates_inrange (raw : List RawRec)
    (city : String) (st ct : Option String) (cc : String)
    (h : ∀ r ∈ raw, validLatLon r.latitude r.longitude = true) :
    (∀ la lo, geocode_city raw city st ct cc ≠ Except.error (Err.invalidCoordinate la lo))
    ∧ (∀ chosen rest, _rank_results raw st ct (some cc) = chosen :: rest →
        validLatLon chosen.latitude chosen.longitude = true)
    ∧ (∀ raw2 : List RawRec, ∀ g ∈ geocode_candidates raw2 city cc,
        validLatLon g.latitude g.longitude = true) := by
  have hchosen : ∀ chosen rest, _rank_results raw st ct (some cc) = chosen :: rest →
      validLatLon chosen.latitude chosen.longitude = true := by
    intro chosen rest heq
    have hm : chosen ∈ _rank_results raw st ct (some cc) :=
      heq ▸ List.mem_cons_self chosen rest
    exact h chosen (mem_surviving (mem_sortPop.mp hm))
  refine ⟨?_, hchosen, ?_⟩
  · intro la lo
    unfold geocode_city
    by_cases he : raw.isEmpty = true
    · rw [if_pos he]
      simp
    · rw [if_neg he]
      rcases hx : _rank_results raw st ct (some cc) with _ | ⟨chosen, rest⟩
      · simp
      · have hv := hchosen chosen rest hx
        simp [hv]
  · intro raw2 g hg
    unfold geocode_candidates at hg
    rcases List.mem_filterMap.mp hg with ⟨r, _, hif⟩
    by_cases hv : validLatLon r.latitude r.longitude = true
    · rw [if_pos hv] at hif
      have hgi := Option.some.inj hif
      rw [← hgi]
      exact hv
    · rw [if_neg hv] at hif
      exact absurd hif (by simp)

/-- C1 witness: on an all-in-range upstream list the chosen candidate is
in range and no invalid-coordinate error is produced. -/
theorem geocode_city_no_invalid_witness :
    (geocode_city [recIll] "Springfield" none none "BR"
        ≠ Except.error (Err.invalidCoordinate 100 0))
    ∧ validLatLon recIll.latitude recIll.longitude = true := by
  have h := geocode_city_no_invalid_when_candidates_inrange [recIll] "Springfield"
    none none "BR" (by decide)
  exact ⟨h.1 100 0, h.2.1 recIll [] (by decide)⟩

/-- C1 counterexample: when the upstream list contains a single
out-of-range record, the candidate chosen by `geocode_city` has latitude
`100 ∉ [-90, 90]` and the supposedly unreachable invalid-coordinate branch
fires — `geocode_city` never applies the range filter of
`geocode_candidates` to the results it ranks. -/
theorem geocode_city_invalid_reachable_cex :
    geocode_city [badRec] "X" none none "BR"
      = Except.error (Err.invalidCoordinate 100 0)
    ∧ _rank_results [badRec] none none (some "BR") = [badRec]
    ∧ validLatLon badRec.latitude badRec.longitude = false := by
  exact ⟨by decide, by decide, by decide⟩

/-! ### Claim C9: direct latlon resolution -/

/-- C9: with both coordinates supplied and in range, `get_forecast_auto`
returns a `mode=latlon` resolved location carrying exactly the supplied
coordinates, and performs no geocoding call; with out-of-range coordinates
it fails with the invalid-coordinate error before any network call at all. -/
theorem resolve_auto_latlon_direct (env : Upstream) (city state county : Option String)
    (cc : String) (la lo : Rat) (tz : String) (days : Nat) (lang : String) :
    (validLatLon la lo = true →
      get_forecast_auto env city state county cc (some la) (some lo) tz days lang
        = (Except.ok (withResolved (env.forecast la lo tz days) (latlonObj la lo tz)),
           [Call.forecastCall la lo tz days])
      ∧ (∀ c ∈ (get_forecast_auto env city state county cc (some la) (some lo)
            tz days lang).2, isGeocodeCall c = false)
      ∧ List.lookup "latitude" (latlonObj la lo tz) = some (JVal.jrat la)
      ∧ List.lookup "longitude" (latlonObj la lo tz) = some (JVal.jrat lo)
      ∧ List.lookup "mode" (latlonObj la lo tz) = some (JVal.jstr "latlon"))
    ∧ (validLatLon la lo = false →
      get_forecast_auto env city state county cc (some la) (some lo) tz days lang
        = (Except.error (Err.invalidCoordinate la lo), [])) := by
  constructor
  · intro hv
    have heq : get_forecast_auto env city state county cc (some la) (some lo) tz days lang
        = (Except.ok (withResolved (env.forecast la lo tz days) (latlonObj la lo tz)),
           [Call.forecastCall la lo tz days]) := by
      show (match get_forecast env la lo tz days with
            | (Except.ok p, calls) =>
                (Except.ok (withResolved p (latlonObj la lo tz)), calls)
            | (Except.error e, calls) => (Except.error e, calls)) = _
      unfold get_forecast
      rw [if_pos hv]
    refine ⟨heq, ?_, rfl, rfl, rfl⟩
    rw [heq]
    intro c hc
    rcases List.mem_singleton.mp hc with rfl
    rfl
  · intro hv
    have hneg : ¬ validLatLon la lo = true := by simp [hv]
    show (match get_forecast env la lo tz days with
          | (Except.ok p, calls) =>
              (Except.ok (withResolved p (latlonObj la lo tz)), calls)
          | (Except.error e, calls) => (Except.error e, calls)) = _
    unfold get_forecast
    rw [if_neg hneg]

/-- C9 witness: concrete in-range and out-of-range invocations. -/
theorem resolve_auto_latlon_direct_witness :
    get_forecast_auto envC none none none "BR" (some 1) (some 2) "UTC" 7 "pt"
      = (Except.ok (withResolved basePay (latlonObj 1 2 "UTC")),
         [Call.forecastCall 1 2 "UTC" 7])
    ∧ get_forecast_auto envC none none none "BR" (some 100) (some 2) "UTC" 7 "pt"
      = (Except.error (Err.invalidCoordinate 100 2), []) := by
  have h1 := (resolve_auto_latlon_direct envC none none none "BR" 1 2 "UTC" 7 "pt").1
    (by decide)
  have h2 := (resolve_auto_latlon_direct envC none none none "BR" 100 2 "UTC" 7 "pt").2
    (by decide)
  exact ⟨h1.1, h2⟩

/-! ### Claim C3: the shape of the `_resolved_location` object -/

theorem city_path_ok_resolved (env : Upstream) (c : String)
    (state county : Option String) (cc tz : String) (days : Nat) (lang : String)
    (p : FPayload)
    (h : (city_path env c state county cc tz days lang).1 = Except.ok p) :
    ∃ geo tz2, p.resolvedLoc = some (cityObj geo tz2) := by
  simp only [city_path] at h
  split at h
  next e heq => simp at h
  next geo heq =>
    split at h
    next p2 calls heq2 =>
      simp at h
      exact ⟨geo, pyOr geo.timezone tz, by rw [← h]; rfl⟩
    next e calls heq2 => simp at h

theorem auto_city_dispatch_ok_resolved (env : Upstream) (city : Option String)
    (state county : Option String) (cc tz : String) (days : Nat) (lang : String)
    (p : FPayload)
    (h : (auto_city_dispatch env city state county cc tz days lang).1 = Except.ok p) :
    ∃ geo tz2, p.resolvedLoc = some (cityObj geo tz2) := by
  cases city with
  | none => simp [auto_city_dispatch] at h
  | some c =>
      by_cases hc : c = ""
      · simp [auto_city_dispatch, hc] at h
      · simp only [auto_city_dispatch, if_neg hc] at h
        exact city_path_ok_resolved env c state county cc tz days lang p h

theorem gfa_ok_resolved (env : Upstream) (city state county : Option String)
    (cc : String) (lat lon : Option Rat) (tz : String) (days : Nat) (lang : String)
    (p : FPayload)
    (h : (get_forecast_auto env city state county cc lat lon tz days lang).1
      = Except.ok p) :
    (∃ la lo, p.resolvedLoc = some (latlonObj la lo tz))
    ∨ (∃ geo tz2, p.resolvedLoc = some (cityObj geo tz2)) := by
  cases lat with
  | some la =>
      cases lon with
      | some lo =>
          have hx : (get_forecast_auto env city state county cc (some la) (some lo)
              tz days lang).1
            = (match get_forecast env la lo tz days with
               | (Except.ok p2, calls) =>
                   (Except.ok (withResolved p2 (latlonObj la lo tz)), calls)
               | (Except.error e, calls) => (Except.error e, calls)).1 := rfl
          rw [hx] at h
          split at h
          next p2 calls heq => simp at h; exact Or.inl ⟨la, lo, by rw [← h]; rfl⟩
          next e calls heq => simp at h
      | none =>
          exact Or.inr (auto_city_dispatch_ok_resolved env city state county cc tz
            days lang p h)
  | none =>
      cases lon with
      | some lo =>
          exact Or.inr (auto_city_dispatch_ok_resolved env city state county cc tz
            days lang p h)
      | none =>
          exact Or.inr (auto_city_dispatch_ok_resolved env city state county cc tz
            days lang p h)

theorem gwf_ok_iff (env : Upstream) (store : Store) (city state : Option String)
    (lat lon : Option Rat) (latS lonS : String) (days : Nat) (p : FPayload)
    (h : (get_weather_forecast env store city state lat lon latS lonS days).1
      = Except.ok p) :
    (get_forecast_auto env city state none "BR" lat lon "America/Sao_Paulo"
        days "pt").1 = Except.ok p := by
  unfold get_weather_forecast at h
  split at h
  next e calls heq => simp at h
  next f calls heq =>
    simp at h
    rw [heq]
    exact congrArg Except.ok h

/-- C3 (amended): every successful `get_weather_forecast` result carries a
`_resolved_location` object, but its field set depends on the resolution
mode: in city mode it has all of mode, name, admin1, admin2, country_code,
latitude, longitude, timezone and population; in latlon mode it has only
mode, latitude, longitude and timezone, and none of the city fields. -/
theorem get_weather_forecast_resolved_location_shape (env : Upstream) (store : Store)
    (city state : Option String) (lat lon : Option Rat) (latS lonS : String)
    (days : Nat) (p : FPayload)
    (h : (get_weather_forecast env store city state lat lon latS lonS days).1
      = Except.ok p) :
    ∃ rl, p.resolvedLoc = some rl ∧
      ((List.lookup "mode" rl = some (JVal.jstr "latlon")
        ∧ (List.lookup "latitude" rl).isSome = true
        ∧ (List.lookup "longitude" rl).isSome = true
        ∧ (List.lookup "timezone" rl).isSome = true
        ∧ List.lookup "name" rl = none
        ∧ List.lookup "admin1" rl = none
        ∧ List.lookup "admin2" rl = none
        ∧ List.lookup "country_code" rl = none
        ∧ List.lookup "population" rl = none)
       ∨ (List.lookup "mode" rl = some (JVal.jstr "city")
        ∧ (List.lookup "name" rl).isSome = true
        ∧ (List.lookup "admin1" rl).isSome = true
        ∧ (List.lookup "admin2" rl).isSome = true
        ∧ (List.lookup "country_code" rl).isSome = true
        ∧ (List.lookup "latitude" rl).isSome = true
        ∧ (List.lookup "longitude" rl).isSome = true
        ∧ (List.lookup "timezone" rl).isSome = true
        ∧ (List.lookup "population" rl).isSome = true)) := by
  rcases gfa_ok_resolved env city state none "BR" lat lon "America/Sao_Paulo" days "pt"
      p (gwf_ok_iff env store city state lat lon latS lonS days p h)
    with ⟨la, lo, hrl⟩ | ⟨geo, tz2, hrl⟩
  · exact ⟨latlonObj la lo "America/Sao_Paulo", hrl,
      Or.inl ⟨rfl, rfl, rfl, rfl, rfl, rfl, rfl, rfl, rfl⟩⟩
  · exact ⟨cityObj geo tz2, hrl,
      Or.inr ⟨rfl, rfl, rfl, rfl, rfl, rfl, rfl, rfl, rfl⟩⟩

/-- C3 witness: a concrete successful latlon invocation has a
`_resolved_location` object. -/
theorem get_weather_forecast_resolved_location_shape_witness :
    ∃ rl, (withResolved basePay (latlonObj 1 2 "America/Sao_Paulo")).resolvedLoc
      = some rl := by
  obtain ⟨rl, hrl, _⟩ := get_weather_forecast_resolved_location_shape envC storeEmpty
    none none (some 1) (some 2) "1" "2" 7
    (withResolved basePay (latlonObj 1 2 "America/Sao_Paulo")) rfl
  exact ⟨rl, hrl⟩

/-- C3 counterexample: a successful latlon-mode call returns a
`_resolved_location` object with no name, admin1, admin2, country_code or
population field, so the claimed field set does not hold in both modes. -/
theorem resolved_location_latlon_missing_fields_cex :
    (get_weather_forecast envC storeEmpty none none (some 1) (some 2) "1" "2" 7).1
      = Except.ok (withResolved basePay (latlonObj 1 2 "America/Sao_Paulo"))
    ∧ List.lookup "mode" (latlonObj 1 2 "America/Sao_Paulo")
      = some (JVal.jstr "latlon")
    ∧ List.lookup "name" (latlonObj 1 2 "America/Sao_Paulo") = none
    ∧ List.lookup "admin1" (latlonObj 1 2 "America/Sao_Paulo") = none
    ∧ List.lookup "admin2" (latlonObj 1 2 "America/Sao_Paulo") = none
    ∧ List.lookup "country_code" (latlonObj 1 2 "America/Sao_Paulo") = none
    ∧ List.lookup "population" (latlonObj 1 2 "America/Sao_Paulo") = none :=
  ⟨rfl, rfl, rfl, rfl, rfl, rfl, rfl⟩

/-! ### Claim C4: the persistence key derivation -/

theorem fsub_comp (c : Char) :
    ((fun c => if c = '-' then 'm' else c) ∘ (fun c => if c = '.' then '_' else c)) c
      = fsub c := by
  by_cases h1 : c = '.'
  · subst h1; decide
  · by_cases h2 : c = '-'
    · subst h2; decide
    · simp [fsub, h1, h2]

theorem latlonKey_data (a b : String) :
    (latlonKey a b).data
      = "lat_".data
        ++ (a.data.map fsub ++ ('_' :: 'l' :: 'o' :: 'n' :: '_' :: b.data.map fsub)) := by
  show ((("lat_" ++ a ++ "_lon_" ++ b).data.map (fun c => if c = '.' then '_' else c)).map
      (fun c => if c = '-' then 'm' else c)) = _
  rw [List.map_map]
  have hdata : ("lat_" ++ a ++ "_lon_" ++ b).data
      = "lat_".data ++ (a.data ++ ("_lon_".data ++ b.data)) := by
    simp [String.data_append, List.append_assoc]
  rw [hdata]
  rw [List.map_congr_left (fun c _ => fsub_comp c)]
  simp only [List.map_append]
  rw [show "lat_".data.map fsub = "lat_".data from by decide]
  rw [show "_lon_".data.map fsub = ['_', 'l', 'o', 'n', '_'] from by decide]
  simp

theorem lonSplit (A : List Char) : ∀ (C B D : List Char),
    (∀ c ∈ A, c ≠ 'l') → (∀ c ∈ C, c ≠ 'l') →
    A ++ ('_' :: 'l' :: 'o' :: 'n' :: '_' :: B)
      = C ++ ('_' :: 'l' :: 'o' :: 'n' :: '_' :: D) →
    A = C ∧ B = D := by
  induction A with
  | nil =>
      intro C B D _ hC heq
      cases C with
      | nil =>
          simp only [List.nil_append] at heq
          injection heq with _ h2
          injection h2 with _ h3
          injection h3 with _ h4
          injection h4 with _ h5
          injection h5 with _ h6
          exact ⟨rfl, h6⟩
      | cons c C2 =>
          simp only [List.nil_append, List.cons_append] at heq
          injection heq with h1 h2
          cases C2 with
          | nil =>
              simp only [List.nil_append] at h2
              injection h2 with h3 _
              exact absurd h3 (by decide)
          | cons c2 C3 =>
              simp only [List.cons_append] at h2
              injection h2 with h3 _
              exact absurd h3.symm (hC c2 (by simp))
  | cons a A2 ih =>
      intro C B D hA hC heq
      cases C with
      | nil =>
          simp only [List.cons_append, List.nil_append] at heq
          injection heq with h1 h2
          cases A2 with
          | nil =>
              simp only [List.nil_append] at h2
              injection h2 with h3 _
              exact absurd h3 (by decide)
          | cons a2 A3 =>
              simp only [List.cons_append] at h2
              injection h2 with h3 _
              exact absurd h3 (hA a2 (by simp))
      | cons c C2 =>
          simp only [List.cons_append] at heq
          injection heq with h1 h2
          obtain ⟨hAC, hBD⟩ := ih C2 B D (fun x hx => hA x (by simp [hx]))
            (fun x hx => hC x (by simp [hx])) h2
          exact ⟨by rw [h1, hAC], hBD⟩

theorem fsub_ne_l {c : Char} (h : numChar c = true) : fsub c ≠ 'l' := by
  by_cases h1 : c = '.'
  · subst h1; decide
  · by_cases h2 : c = '-'
    · subst h2; decide
    · have he : fsub c = c := by simp [fsub, h1, h2]
      rw [he]
      intro hc
      subst hc
      exact absurd h (by decide)

theorem gsub_fsub {c : Char} (h : numChar c = true) : gsub (fsub c) = c := by
  by_cases h1 : c = '.'
  · subst h1; decide
  · by_cases h2 : c = '-'
    · subst h2; decide
    · have he : fsub c = c := by simp [fsub, h1, h2]
      rw [he]
      have h3 : c ≠ '_' := by intro hc; subst hc; exact absurd h (by decide)
      have h4 : c ≠ 'm' := by intro hc; subst hc; exact absurd h (by decide)
      simp [gsub, h3, h4]

theorem map_fsub_inj {l1 l2 : List Char} (h1 : ∀ c ∈ l1, numChar c = true)
    (h2 : ∀ c ∈ l2, numChar c = true) (h : l1.map fsub = l2.map fsub) : l1 = l2 := by
  have e1 : (l1.map fsub).map gsub = l1 := by
    rw [List.map_map]
    have hcongr : l1.map (gsub ∘ fsub) = l1.map id :=
      List.map_congr_left (fun c hc => gsub_fsub (h1 c hc))
    rw [hcongr, List.map_id]
  have e2 : (l2.map fsub).map gsub = l2 := by
    rw [List.map_map]
    have hcongr : l2.map (gsub ∘ fsub) = l2.map id :=
      List.map_congr_left (fun c hc => gsub_fsub (h2 c hc))
    rw [hcongr, List.map_id]
  calc l1 = (l1.map fsub).map gsub := e1.symm
    _ = (l2.map fsub).map gsub := by rw [h]
    _ = l2 := e2

theorem strData_ext {s t : String} (h : s.data = t.data) : s = t := by
  cases s
  cases t
  exact congrArg String.mk h

/-- C4 (amended): the folder key is derived from the caller inputs, not
from the resolved location: the city branch lower-cases, strips and
replaces spaces by underscores, and the latlon branch is injective on the
decimal renderings of distinct coordinate pairs (so collisions happen only
at the precision of the rendering); but because a truthy caller `city`
alone decides the key, two calls with the same city text and different
hints that resolve to distinct locations share one key (see the
counterexample). -/
theorem folder_key_city_and_latlon_injective :
    (∀ c latS lonS, c ≠ "" → folder_name (some c) latS lonS = cityKey c)
    ∧ (∀ a b a2 b2 : String, numStr a → numStr b → numStr a2 → numStr b2 →
        latlonKey a b = latlonKey a2 b2 → a = a2 ∧ b = b2) := by
  constructor
  · intro c latS lonS hc
    simp [folder_name, hc]
  · intro a b a2 b2 ha hb ha2 hb2 heq
    have hd : (latlonKey a b).data = (latlonKey a2 b2).data := by rw [heq]
    rw [latlonKey_data, latlonKey_data] at hd
    have hd2 := List.append_cancel_left hd
    have hfree : ∀ (s : String), numStr s → ∀ c ∈ s.data.map fsub, c ≠ 'l' := by
      intro s hs c hc
      rcases List.mem_map.mp hc with ⟨c0, hc0, rfl⟩
      exact fsub_ne_l (hs c0 hc0)
    obtain ⟨hA, hB⟩ := lonSplit (a.data.map fsub) (a2.data.map fsub)
      (b.data.map fsub) (b2.data.map fsub) (hfree a ha) (hfree a2 ha2) hd2
    exact ⟨strData_ext (map_fsub_inj ha ha2 hA), strData_ext (map_fsub_inj hb hb2 hB)⟩

/-- C4 witness: the city branch and an application of the latlon
injectivity at concrete decimal renderings. -/
theorem folder_key_city_and_latlon_injective_witness :
    folder_name (some "New York") "" "" = cityKey "New York"
    ∧ ("1.5" = "1.5" ∧ "-2" = "-2") :=
  ⟨folder_key_city_and_latlon_injective.1 "New York" "" "" (by decide),
   folder_key_city_and_latlon_injective.2 "1.5" "-2" "1.5" "-2"
     (by decide) (by decide) (by decide) (by decide) rfl⟩

/-- C4 counterexample: two calls with the same city text but different
state hints resolve to distinct locations (latitude 39 vs 37) yet share
the folder key `"springfield"` — both runs write their record under that
one key — refuting "two calls that resolve to distinct locations never
share a key". -/
theorem folder_key_shared_by_distinct_locations_cex :
    ((get_weather_forecast envSp storeEmpty (some "Springfield") (some "Illinois")
        none none "" "" 7).1.map (fun p => p.resolvedLoc.bind (List.lookup "latitude")))
      = Except.ok (some (JVal.jrat 39))
    ∧ ((get_weather_forecast envSp storeEmpty (some "Springfield") (some "Missouri")
        none none "" "" 7).1.map (fun p => p.resolvedLoc.bind (List.lookup "latitude")))
      = Except.ok (some (JVal.jrat 37))
    ∧ folder_name (some "Springfield") "" "" = "springfield"
    ∧ ((get_weather_forecast envSp storeEmpty (some "Springfield") (some "Illinois")
        none none "" "" 7).2.1 "springfield").isSome = true
    ∧ ((get_weather_forecast envSp storeEmpty (some "Springfield") (some "Missouri")
        none none "" "" 7).2.1 "springfield").isSome = true := by
  refine ⟨rfl, rfl, by decide, by decide, by decide⟩
